import Mathlib

/-!
Verification model of the `capture-device-info` crate (DirectShow backend).

The development shallowly embeds `src/lib.rs` and `src/dshow.rs`:

* `f64` values are modelled by `Fp`: exact rationals for finite values plus
  the IEEE special values `inf`, `neginf` and `nan`.  Arithmetic on finite
  values is exact (rounding error of `f64` operations is not modelled; the
  magnitudes reached by this program are far below overflow, so finite
  results stay finite).  The IEEE sign/special rules for `*`, `/`, `round`,
  comparisons and the saturating `as i64` cast are modelled faithfully.
* The Windows API surface (COM enumeration, property bags, pins, media
  types) is an explicit environment (`Env`, `DeviceData`, `PinData`): each
  fallible call's outcome is a field of the environment, and iterators that
  batch native `Next` calls are finite lists.
* `HashSet<CaptureDeviceResolution>` is a list of insertion-ordered distinct
  representatives (`hsInsert` mirrors `HashSet::insert`: a duplicate keeps
  the old element).  Rust's `HashSet` iteration order is unspecified and
  randomly seeded, so the order in which `into_iter().collect()` yields the
  set is a per-device environment parameter `shuffle`; well-behaved
  environments only permute (`DeviceOk`).
* `sort_unstable_by` with the comparator of `dshow.rs:313-317` is modelled
  by `List.insertionSort` over `resLe`, a total extension of the comparator.
  The two agree whenever the `partial_cmp(..).unwrap()` in the source does
  not panic, i.e. whenever no sort key is NaN.

Rational arithmetic is implemented with `Rat.divInt` (the `Rat.mul` /
`Rat.add` / `Rat.inv` of the library are `irreducible`, which would block
kernel evaluation on concrete inputs); bridge lemmas identify the
implementations with the ordinary field operations of `ℚ`.
-/

/-- Multiplication on `ℚ`, implemented reducibly via `Rat.divInt`. -/
def qmul (a b : ℚ) : ℚ := Rat.divInt (a.num * b.num) ((a.den : ℤ) * (b.den : ℤ))

/-- Addition on `ℚ`, implemented reducibly via `Rat.divInt`. -/
def qadd (a b : ℚ) : ℚ :=
  Rat.divInt (a.num * (b.den : ℤ) + b.num * (a.den : ℤ)) ((a.den : ℤ) * (b.den : ℤ))

/-- Division on `ℚ` (with `q / 0 = 0`), implemented reducibly via `Rat.divInt`. -/
def qdiv (a b : ℚ) : ℚ := Rat.divInt (a.num * (b.den : ℤ)) ((a.den : ℤ) * b.num)

/-- Negation on `ℚ`, implemented reducibly via `Rat.divInt`. -/
def qneg (a : ℚ) : ℚ := Rat.divInt (-a.num) (a.den : ℤ)

theorem qmul_eq (a b : ℚ) : qmul a b = a * b := by
  rw [qmul, Rat.divInt_eq_div]
  push_cast
  rw [div_mul_div_comm ((a.num : ℚ)) _ ((b.num : ℚ)) _ |>.symm]
  rw [Rat.num_div_den, Rat.num_div_den]

theorem qadd_eq (a b : ℚ) : qadd a b = a + b := by
  have ha : ((a.den : ℚ)) ≠ 0 := by positivity
  have hb : ((b.den : ℚ)) ≠ 0 := by positivity
  rw [qadd, Rat.divInt_eq_div]
  push_cast
  conv_rhs => rw [← Rat.num_div_den a, ← Rat.num_div_den b]
  rw [div_add_div _ _ ha hb, mul_comm ((a.den : ℚ)) ((b.num : ℚ))]

theorem qdiv_eq (a b : ℚ) : qdiv a b = a / b := by
  rw [qdiv, Rat.divInt_eq_div]
  push_cast
  conv_rhs => rw [division_def, Rat.inv_def', Rat.divInt_eq_div, ← Rat.num_div_den a]
  rw [div_mul_div_comm]
  push_cast
  rfl

theorem qneg_eq (a : ℚ) : qneg a = -a := by
  rw [qneg, Rat.divInt_eq_div]
  push_cast
  rw [neg_div, Rat.num_div_den]

/-- Floor of a rational, implemented reducibly. -/
def ratFloor (q : ℚ) : ℤ := q.num / (q.den : ℤ)

theorem ratFloor_eq_floor (q : ℚ) : ratFloor q = ⌊q⌋ := (Rat.floor_def).symm

/-- Rounding to the nearest integer, halves away from zero: the semantics of
Rust's `f64::round` on finite values. -/
def roundAway (q : ℚ) : ℤ :=
  if 0 ≤ q then ratFloor (qadd q (Rat.divInt 1 2))
  else -(ratFloor (qadd (qneg q) (Rat.divInt 1 2)))

/-- Truncation toward zero: the rounding used by Rust's `as i64` float cast. -/
def ratTrunc (q : ℚ) : ℤ := if 0 ≤ q then ratFloor q else -(ratFloor (qneg q))

/-- Model of an `f64` value: an exact rational for the finite case plus the
IEEE special values.  Finite arithmetic is exact, see the file comment. -/
inductive Fp where
  | finite (q : ℚ)
  | inf
  | neginf
  | nan
deriving DecidableEq

/-- IEEE multiplication on the `Fp` model (`0 * ±∞ = NaN`, sign rules). -/
def Fp.mul : Fp → Fp → Fp
  | .nan, _ => .nan
  | _, .nan => .nan
  | .finite a, .finite b => .finite (qmul a b)
  | .finite a, .inf => if 0 < a then .inf else if a < 0 then .neginf else .nan
  | .finite a, .neginf => if 0 < a then .neginf else if a < 0 then .inf else .nan
  | .inf, .finite b => if 0 < b then .inf else if b < 0 then .neginf else .nan
  | .neginf, .finite b => if 0 < b then .neginf else if b < 0 then .inf else .nan
  | .inf, .inf => .inf
  | .inf, .neginf => .neginf
  | .neginf, .inf => .neginf
  | .neginf, .neginf => .inf

/-- IEEE division on the `Fp` model (`x / 0 = ±∞` for `x ≠ 0`, `0/0 = NaN`). -/
def Fp.div : Fp → Fp → Fp
  | .nan, _ => .nan
  | _, .nan => .nan
  | .finite a, .finite b =>
    if b = 0 then (if 0 < a then .inf else if a < 0 then .neginf else .nan)
    else .finite (qdiv a b)
  | .finite _, .inf => .finite 0
  | .finite _, .neginf => .finite 0
  | .inf, .finite b => if 0 ≤ b then .inf else .neginf
  | .neginf, .finite b => if 0 ≤ b then .neginf else .inf
  | .inf, _ => .nan
  | .neginf, _ => .nan

/-- Model of `f64::round` (halves away from zero; fixes the special values). -/
def Fp.fround : Fp → Fp
  | .finite q => .finite ((roundAway q : ℤ) : ℚ)
  | .inf => .inf
  | .neginf => .neginf
  | .nan => .nan

/-- Model of `f64::partial_cmp`: `none` exactly when an operand is NaN. -/
def Fp.pcmp : Fp → Fp → Option Ordering
  | .nan, _ => none
  | _, .nan => none
  | .finite a, .finite b =>
    some (if a < b then .lt else if b < a then .gt else .eq)
  | .finite _, .inf => some .lt
  | .finite _, .neginf => some .gt
  | .inf, .finite _ => some .gt
  | .neginf, .finite _ => some .lt
  | .inf, .inf => some .eq
  | .neginf, .neginf => some .eq
  | .inf, .neginf => some .gt
  | .neginf, .inf => some .lt

/-- IEEE `>=` on the `Fp` model (false when an operand is NaN). -/
def Fp.fge (a b : Fp) : Bool :=
  match Fp.pcmp a b with
  | some .gt => true
  | some .eq => true
  | _ => false

/-- Total order extending the comparator used by the sort in
`dshow.rs:313-317`: it agrees with `pcmp` whenever neither operand is NaN
(the case in which the source's `.unwrap()` would panic instead). -/
def Fp.leTotal : Fp → Fp → Bool
  | .nan, _ => true
  | _, .nan => false
  | .neginf, _ => true
  | _, .neginf => false
  | .finite a, .finite b => decide (a ≤ b)
  | .finite _, .inf => true
  | .inf, .inf => true
  | .inf, .finite _ => false

/-- Model of Rust's saturating `as i64` cast on `f64` (truncation toward
zero; `NaN ↦ 0`, `±∞ ↦ i64::MAX/MIN`). -/
def Fp.toI64sat : Fp → ℤ
  | .finite q =>
    max (-9223372036854775808) (min 9223372036854775807 (ratTrunc q))
  | .inf => 9223372036854775807
  | .neginf => -9223372036854775808
  | .nan => 0

/-- Model of `BITMAPINFOHEADER` (the two fields read by the source);
`biWidth` and `biHeight` are `i32` values. -/
structure BITMAPINFOHEADER where
  biWidth : ℤ
  biHeight : ℤ
deriving DecidableEq

/-- Model of the `formattype` GUID of an `AM_MEDIA_TYPE`: the two
recognized constants plus an index for every other GUID. -/
inductive FormatType where
  | videoInfo
  | videoInfo2
  | other (g : ℕ)
deriving DecidableEq

/-- Model of a media type (`AM_MEDIA_TYPE` plus the fields of its
`VIDEOINFOHEADER`/`VIDEOINFOHEADER2` blob that the source reads:
`AvgTimePerFrame` is an `i64` count of 100ns ticks, `bmiHeader` the
embedded bitmap header).  A descriptor is assumed well formed for its
`formattype`; the source dereferences the blob unchecked. -/
structure MediaType where
  formattype : FormatType
  avgTimePerFrame : ℤ
  bmiHeader : BITMAPINFOHEADER
deriving DecidableEq

/-- Model of `MediaType::frame_rate` (`dshow.rs:144-158`):
`10_000_000.0 / AvgTimePerFrame` rounded to 2 decimals, for the two
recognized format types. -/
def MediaType.frame_rate (mt : MediaType) : Option Fp :=
  let fps : Option Fp :=
    if mt.formattype = FormatType.videoInfo then
      some (Fp.div (.finite 10000000) (.finite (mt.avgTimePerFrame : ℚ)))
    else if mt.formattype = FormatType.videoInfo2 then
      some (Fp.div (.finite 10000000) (.finite (mt.avgTimePerFrame : ℚ)))
    else none
  fps.map fun fps => Fp.div (Fp.fround (Fp.mul fps (.finite 100))) (.finite 100)

/-- Model of `MediaType::bitmap_info` (`dshow.rs:160-173`). -/
def MediaType.bitmap_info (mt : MediaType) : Option BITMAPINFOHEADER :=
  if mt.formattype = FormatType.videoInfo then some mt.bmiHeader
  else if mt.formattype = FormatType.videoInfo2 then some mt.bmiHeader
  else none

/-- Model of `CaptureDeviceResolution` (`lib.rs:102-109`). -/
structure CaptureDeviceResolution where
  width : ℕ
  height : ℕ
  frame_rate : Fp
deriving DecidableEq

/-- Model of `FRAME_RATE_TIME_UNIT_PER_SECOND` (`lib.rs:112`). -/
def FRAME_RATE_TIME_UNIT_PER_SECOND : Fp := .finite 100

/-- Model of `CaptureDeviceResolution::frame_rate_by_units` (`lib.rs:115-117`):
`(frame_rate * 1e2) as i64`. -/
def CaptureDeviceResolution.frame_rate_by_units (r : CaptureDeviceResolution) : ℤ :=
  Fp.toI64sat (Fp.mul r.frame_rate FRAME_RATE_TIME_UNIT_PER_SECOND)

/-- Model of the `PartialEq` impl of `CaptureDeviceResolution`
(`lib.rs:120-126`): width, height and the `i64`-scaled frame rate. -/
def resEq (a b : CaptureDeviceResolution) : Bool :=
  a.width == b.width && a.height == b.height &&
    a.frame_rate_by_units == b.frame_rate_by_units

/-- Model of `HashSet::insert` on the insertion-ordered list of set
representatives: a new element is appended, an element equal (under the
custom `PartialEq`/`Hash` of `lib.rs`) to a present one is dropped. -/
def hsInsert (s : List CaptureDeviceResolution) (r : CaptureDeviceResolution) :
    List CaptureDeviceResolution :=
  if s.any (fun x => resEq x r) then s else s ++ [r]

/-- Model of `windows::core::Error`: an HRESULT plus a message. -/
structure WinError where
  code : ℤ
  msg : String
deriving DecidableEq

/-- Model of `PIN_DIRECTION`. -/
inductive PinDir where
  | input
  | output
deriving DecidableEq

/-- Environment view of one `IPin`: the outcome of `QueryPinInfo` and of
enumerating its media types (`EnumMediaTypes` plus the batched `Next`
calls, which yield a finite list). -/
structure PinData where
  queryInfo : Except WinError PinDir
  enumMediaTypes : Except WinError (List MediaType)

/-- Environment view of one device moniker: the outcome of each native call
the source makes for it.  `shuffle` is the iteration order of the
`HashSet` in `capture_devices` (`dshow.rs:312`), which Rust leaves
unspecified (the hasher is randomly seeded); well-behaved environments
only permute the set (`DeviceOk`). -/
structure DeviceData where
  bindStorage : Except WinError Unit
  descriptionRead : Except WinError String
  friendlyNameRead : Except WinError String
  clearDescVariant : Except WinError Unit
  devicePathRead : Except WinError String
  clearPathVariant : Except WinError Unit
  enumPins : Except WinError (List PinData)
  shuffle : List CaptureDeviceResolution → List CaptureDeviceResolution

/-- Model of `DirectShowCaptureDevice` (`dshow.rs:19-23`). -/
structure DirectShowCaptureDevice where
  name : String
  description : String
  resolution : List CaptureDeviceResolution
deriving DecidableEq

/-- Model of the `as u32` cast applied to `biWidth` (`dshow.rs:301`):
two's-complement wrap of an `i32` value into `u32`. -/
def u32OfI32 (w : ℤ) : ℕ := (w % 4294967296).toNat

/-- Model of the body of the media-type loop (`dshow.rs:300-309`): a
recognized descriptor yields the tuple inserted into the set.  The
`frame_rate().unwrap()` of line 303 is modelled by `Option.getD`; the
`none` branch (a panic in the source) is unreachable because
`bitmap_info` and `frame_rate` recognize exactly the same format types. -/
def interpretMediaType (mt : MediaType) : Option CaptureDeviceResolution :=
  match mt.bitmap_info with
  | some bi =>
    some ⟨u32OfI32 bi.biWidth, bi.biHeight.natAbs, (mt.frame_rate).getD Fp.nan⟩
  | none => none

/-- Folding the media types of one pin into the resolution set
(`dshow.rs:299-310`). -/
def insertMediaTypes (acc : List CaptureDeviceResolution) (mts : List MediaType) :
    List CaptureDeviceResolution :=
  mts.foldl (fun acc mt =>
    match interpretMediaType mt with
    | some r => hsInsert acc r
    | none => acc) acc

/-- Model of one iteration of the pin loop (`dshow.rs:291-311`): query the
pin direction, skip non-output pins, fold the pin's media types. -/
def processPin (acc : List CaptureDeviceResolution) (p : PinData) :
    Except WinError (List CaptureDeviceResolution) :=
  match p.queryInfo with
  | .error e => .error e
  | .ok dir =>
    if dir = PinDir.output then
      match p.enumMediaTypes with
      | .error e => .error e
      | .ok mts => .ok (insertMediaTypes acc mts)
    else .ok acc

/-- The pin loop of `dshow.rs:291-311` over the whole pin list. -/
def processPinsList (acc : List CaptureDeviceResolution) :
    List PinData → Except WinError (List CaptureDeviceResolution)
  | [] => .ok acc
  | p :: ps =>
    match processPin acc p with
    | .error e => .error e
    | .ok acc2 => processPinsList acc2 ps

/-- The resolution set gathered for one device (`dshow.rs:290-311`),
in insertion (discovery) order. -/
def processPins (d : DeviceData) : Except WinError (List CaptureDeviceResolution) :=
  match d.enumPins with
  | .error e => .error e
  | .ok ps => processPinsList [] ps

/-- Model of the description resolution (`dshow.rs:259-272`): read
`"Description"`, fall back to `"FriendlyName"` on failure (propagating the
fallback's error), then `VariantClear`.  The second component is the list
of property-bag keys actually read. -/
def readDescription (d : DeviceData) : Except WinError String × List String :=
  match d.descriptionRead with
  | .ok s =>
    (match d.clearDescVariant with
     | .ok _ => .ok s
     | .error e => .error e, ["Description"])
  | .error _ =>
    match d.friendlyNameRead with
    | .ok s =>
      (match d.clearDescVariant with
       | .ok _ => .ok s
       | .error e => .error e, ["Description", "FriendlyName"])
    | .error e => (.error e, ["Description", "FriendlyName"])

/-- Model of the device-path resolution (`dshow.rs:274-287`): read
`"DevicePath"`; on success `VariantClear` and return the path, on failure
return the empty string (not an error). -/
def readDevicePath (d : DeviceData) : Except WinError String :=
  match d.devicePathRead with
  | .ok s =>
    match d.clearPathVariant with
    | .ok _ => .ok s
    | .error e => .error e
  | .error _ => .ok ""

/-- The sort key of `dshow.rs:314-315`:
`(width as f64) * (height as f64) * frame_rate`. -/
def sortKey (r : CaptureDeviceResolution) : Fp :=
  Fp.mul (Fp.mul (.finite (r.width : ℚ)) (.finite (r.height : ℚ))) r.frame_rate

/-- The order imposed by the comparator of `dshow.rs:313-317` (descending
sort key), extended to a total order via `Fp.leTotal`; it coincides with
the source comparator whenever no key is NaN (otherwise the source
panics). -/
def resLe (a b : CaptureDeviceResolution) : Prop :=
  Fp.leTotal (sortKey b) (sortKey a) = true

instance resLe.decRel : DecidableRel resLe := fun a b =>
  inferInstanceAs (Decidable (Fp.leTotal (sortKey b) (sortKey a) = true))

/-- Model of `resolution.sort_unstable_by(..)` (`dshow.rs:312-317`). -/
def sortResolutions (l : List CaptureDeviceResolution) : List CaptureDeviceResolution :=
  List.insertionSort resLe l

/-- Model of the per-moniker closure of `capture_devices`
(`dshow.rs:243-324`): bind the property bag, resolve description and
device path, gather and sort the resolutions. -/
def processDevice (d : DeviceData) : Except WinError DirectShowCaptureDevice :=
  match d.bindStorage with
  | .error e => .error e
  | .ok _ =>
    match (readDescription d).1 with
    | .error e => .error e
    | .ok description =>
      match readDevicePath d with
      | .error e => .error e
      | .ok device_path =>
        match processPins d with
        | .error e => .error e
        | .ok set =>
          .ok ⟨device_path, description, sortResolutions (d.shuffle set)⟩

/-- Environment of one `capture_devices` call: the outcome of
`CoInitializeEx` and of `MonikerIterator::enumerate_devices`
(`CoCreateInstance` / `CreateClassEnumerator` / missing enumerator), the
latter carrying the finite moniker sequence on success. -/
structure Env where
  coInit : Except WinError Unit
  enumerateDevices : Except WinError (List DeviceData)

/-- Instrumentation of the process-wide COM session: whether
`CoInitializeEx` succeeded and whether `CoUninitialize` was called before
returning. -/
structure ComTrace where
  acquired : Bool
  released : Bool
deriving DecidableEq

/-- Model of `.map(..).collect::<Result<Vec<_>>>()` (`dshow.rs:242-325`):
stop at the first failing device. -/
def collectResults : List DeviceData → Except WinError (List DirectShowCaptureDevice)
  | [] => .ok []
  | d :: ds =>
    match processDevice d with
    | .error e => .error e
    | .ok r =>
      match collectResults ds with
      | .error e => .error e
      | .ok rs => .ok (r :: rs)

/-- Model of `capture_devices` (`dshow.rs:239-330`).  The trace records the
COM session: `CoUninitialize` (line 327) is reached only on the success
path, exactly as in the source, where every `?` before it returns without
passing through line 327. -/
def capture_devices (env : Env) :
    Except WinError (List DirectShowCaptureDevice) × ComTrace :=
  match env.coInit with
  | .error e => (.error e, ⟨false, false⟩)
  | .ok _ =>
    match env.enumerateDevices with
    | .error e => (.error e, ⟨true, false⟩)
    | .ok devs =>
      match collectResults devs with
      | .error e => (.error e, ⟨true, false⟩)
      | .ok records => (.ok records, ⟨true, true⟩)

/-- A device environment is well behaved when its `HashSet` iteration order
is a permutation of the gathered set. -/
def DeviceOk (d : DeviceData) : Prop :=
  ∀ l, (d.shuffle l).Perm l

/-- All recognized media types of a device advertise a nonzero frame
interval (the spec's precondition for NaN-free sort keys). -/
def DeviceTicksOk (d : DeviceData) : Prop :=
  ∀ ps, d.enumPins = .ok ps → ∀ p ∈ ps, ∀ mts, p.enumMediaTypes = .ok mts →
    ∀ mt ∈ mts,
      (mt.formattype = FormatType.videoInfo ∨ mt.formattype = FormatType.videoInfo2) →
      mt.avgTimePerFrame ≠ 0

/-- Formalisation of the spec's dedup key `round(frame_rate * 100)`,
extended to the IEEE special values by saturation. -/
def specRound100 : Fp → ℤ
  | .finite q => roundAway (qmul q 100)
  | .inf => 9223372036854775807
  | .neginf => -9223372036854775808
  | .nan => 0

theorem floor_divInt_half : ⌊(Rat.divInt 1 2 : ℚ)⌋ = 0 := by
  rw [Rat.divInt_eq_div, Int.floor_eq_zero_iff, Set.mem_Ico]
  constructor <;> norm_num

theorem roundAway_intCast (n : ℤ) : roundAway ((n : ℚ)) = n := by
  unfold roundAway
  by_cases h : (0 : ℚ) ≤ (n : ℚ)
  · rw [if_pos h, ratFloor_eq_floor, qadd_eq, Int.floor_int_add, floor_divInt_half,
      add_zero]
  · rw [if_neg h, ratFloor_eq_floor, qadd_eq, qneg_eq]
    have hc : -((n : ℤ) : ℚ) = ((-n : ℤ) : ℚ) := by push_cast; ring
    rw [hc, Int.floor_int_add, floor_divInt_half, add_zero, neg_neg]

theorem roundAway_bound {q : ℚ} {B : ℤ} (hB : 0 ≤ B) (h : |q| ≤ (B : ℚ)) :
    -B ≤ roundAway q ∧ roundAway q ≤ B := by
  rw [abs_le] at h
  obtain ⟨hl, hu⟩ := h
  have h12eq : (Rat.divInt 1 2 : ℚ) = 1 / 2 := by
    rw [Rat.divInt_eq_div]; norm_num
  unfold roundAway
  by_cases h0 : 0 ≤ q
  · rw [if_pos h0, ratFloor_eq_floor, qadd_eq, h12eq]
    have h1 : (0 : ℤ) ≤ ⌊q + 1 / 2⌋ := Int.le_floor.mpr (by push_cast; linarith)
    have h2 : ⌊q + 1 / 2⌋ < B + 1 := Int.floor_lt.mpr (by push_cast; linarith)
    omega
  · rw [if_neg h0, ratFloor_eq_floor, qadd_eq, qneg_eq, h12eq]
    have h1 : (0 : ℤ) ≤ ⌊-q + 1 / 2⌋ := Int.le_floor.mpr (by push_cast; linarith)
    have h2 : ⌊-q + 1 / 2⌋ < B + 1 := Int.floor_lt.mpr (by push_cast; linarith)
    omega

theorem ratTrunc_intCast (n : ℤ) : ratTrunc ((n : ℚ)) = n := by
  unfold ratTrunc
  by_cases h : (0 : ℚ) ≤ (n : ℚ)
  · rw [if_pos h, ratFloor_eq_floor, Int.floor_intCast]
  · rw [if_neg h, qneg_eq, ratFloor_eq_floor]
    have hc : -((n : ℤ) : ℚ) = ((-n : ℤ) : ℚ) := by push_cast; ring
    rw [hc, Int.floor_intCast, neg_neg]

/-- A frame rate as produced by the interpreter from a nonzero tick count:
a bounded integer number of hundredths. -/
def CanonFin (f : Fp) : Prop :=
  ∃ n : ℤ, -1000000000 ≤ n ∧ n ≤ 1000000000 ∧ f = .finite (qdiv ((n : ℤ) : ℚ) 100)

/-- A frame rate as produced by the interpreter from an arbitrary tick
count: either `+∞` (zero ticks) or a bounded number of hundredths. -/
def CanonRate (f : Fp) : Prop := f = Fp.inf ∨ CanonFin f

/-- The frame-rate computation of `MediaType::frame_rate` for a nonzero
tick count yields a bounded number of hundredths. -/
theorem rate_comp_fin (t : ℤ) (ht : t ≠ 0) :
    CanonFin (Fp.div
      (Fp.fround (Fp.mul (Fp.div (.finite 10000000) (.finite (t : ℚ))) (.finite 100)))
      (.finite 100)) := by
  have htq : ((t : ℤ) : ℚ) ≠ 0 := Int.cast_ne_zero.mpr ht
  have h100 : ((100 : ℚ)) ≠ 0 := by norm_num
  rw [show Fp.div (.finite 10000000) (.finite (t : ℚ))
      = .finite (qdiv 10000000 (t : ℚ)) from by simp [Fp.div, htq]]
  rw [show Fp.mul (.finite (qdiv 10000000 (t : ℚ))) (.finite 100)
      = .finite (qmul (qdiv 10000000 (t : ℚ)) 100) from by simp [Fp.mul]]
  rw [show Fp.fround (.finite (qmul (qdiv 10000000 (t : ℚ)) 100))
      = .finite ((roundAway (qmul (qdiv 10000000 (t : ℚ)) 100) : ℤ) : ℚ) from rfl]
  rw [show Fp.div (.finite ((roundAway (qmul (qdiv 10000000 (t : ℚ)) 100) : ℤ) : ℚ))
        (.finite 100)
      = .finite (qdiv ((roundAway (qmul (qdiv 10000000 (t : ℚ)) 100) : ℤ) : ℚ) 100)
      from by simp [Fp.div, h100]]
  refine ⟨roundAway (qmul (qdiv 10000000 (t : ℚ)) 100), ?_, ?_, rfl⟩ <;>
  · have habs : |qmul (qdiv 10000000 (t : ℚ)) 100| ≤ ((1000000000 : ℤ) : ℚ) := by
      rw [qmul_eq, qdiv_eq, abs_mul, abs_div]
      have h1 : (1 : ℚ) ≤ |((t : ℤ) : ℚ)| := by
        have : (1 : ℤ) ≤ |t| := Int.one_le_abs ht
        calc (1 : ℚ) ≤ ((|t| : ℤ) : ℚ) := by exact_mod_cast this
          _ = |((t : ℤ) : ℚ)| := by push_cast; rfl
      have h2 : |(10000000 : ℚ)| / |((t : ℤ) : ℚ)| ≤ 10000000 := by
        rw [div_le_iff₀ (by linarith : (0 : ℚ) < |((t : ℤ) : ℚ)|)]
        calc |(10000000 : ℚ)| = 10000000 * 1 := by norm_num
          _ ≤ 10000000 * |((t : ℤ) : ℚ)| := by
            exact mul_le_mul_of_nonneg_left h1 (by norm_num)
      calc |(10000000 : ℚ)| / |((t : ℤ) : ℚ)| * |(100 : ℚ)|
            ≤ 10000000 * |(100 : ℚ)| := by
              exact mul_le_mul_of_nonneg_right h2 (abs_nonneg _)
        _ ≤ ((1000000000 : ℤ) : ℚ) := by norm_num
    have := roundAway_bound (by norm_num) habs
    omega

/-- The frame-rate computation of `MediaType::frame_rate` for an arbitrary
tick count is either `+∞` or a bounded number of hundredths. -/
theorem rate_comp_canon (t : ℤ) :
    CanonRate (Fp.div
      (Fp.fround (Fp.mul (Fp.div (.finite 10000000) (.finite (t : ℚ))) (.finite 100)))
      (.finite 100)) := by
  by_cases ht : t = 0
  · subst ht
    left
    simp [Fp.div, Fp.mul, Fp.fround]
  · exact Or.inr (rate_comp_fin t ht)

/-- Every frame rate returned by `MediaType::frame_rate` is canonical. -/
theorem frame_rate_canon (mt : MediaType) (fr : Fp) (h : mt.frame_rate = some fr) :
    CanonRate fr := by
  unfold MediaType.frame_rate at h
  by_cases h1 : mt.formattype = FormatType.videoInfo
  · simp only [h1, Option.map_some', Option.some_inj, reduceIte] at h
    rw [← h]
    exact rate_comp_canon mt.avgTimePerFrame
  · by_cases h2 : mt.formattype = FormatType.videoInfo2
    · simp only [h1, h2, Option.map_some', Option.some_inj, reduceIte, ite_self] at h
      rw [← h]
      exact rate_comp_canon mt.avgTimePerFrame
    · simp [h1, h2] at h

/-- Every frame rate returned by `MediaType::frame_rate` for a descriptor
with nonzero tick count is finite canonical. -/
theorem frame_rate_fin (mt : MediaType) (fr : Fp) (ht : mt.avgTimePerFrame ≠ 0)
    (h : mt.frame_rate = some fr) : CanonFin fr := by
  unfold MediaType.frame_rate at h
  by_cases h1 : mt.formattype = FormatType.videoInfo
  · simp only [h1, Option.map_some', Option.some_inj, reduceIte] at h
    rw [← h]
    exact rate_comp_fin mt.avgTimePerFrame ht
  · by_cases h2 : mt.formattype = FormatType.videoInfo2
    · simp only [h1, h2, Option.map_some', Option.some_inj, reduceIte, ite_self] at h
      rw [← h]
      exact rate_comp_fin mt.avgTimePerFrame ht
    · simp [h1, h2] at h

/-- If `bitmap_info` recognizes a descriptor then so does `frame_rate`. -/
theorem frame_rate_isSome_of_bitmap (mt : MediaType) (bi : BITMAPINFOHEADER)
    (h : mt.bitmap_info = some bi) : ∃ fr, mt.frame_rate = some fr := by
  unfold MediaType.bitmap_info at h
  unfold MediaType.frame_rate
  by_cases h1 : mt.formattype = FormatType.videoInfo
  · simp [h1]
  · by_cases h2 : mt.formattype = FormatType.videoInfo2
    · simp [h1, h2]
    · simp [h1, h2] at h

/-- Every tuple built by the media-type loop has a canonical frame rate. -/
theorem interp_canon (mt : MediaType) (r : CaptureDeviceResolution)
    (h : interpretMediaType mt = some r) : CanonRate r.frame_rate := by
  unfold interpretMediaType at h
  cases hbi : mt.bitmap_info with
  | none => rw [hbi] at h; cases h
  | some bi =>
    rw [hbi] at h
    obtain ⟨fr, hfr⟩ := frame_rate_isSome_of_bitmap mt bi hbi
    cases h
    rw [hfr]
    exact frame_rate_canon mt fr hfr

/-- Every tuple built by the media-type loop from a descriptor with nonzero
tick count has a finite canonical frame rate. -/
theorem interp_fin (mt : MediaType) (r : CaptureDeviceResolution)
    (ht : mt.avgTimePerFrame ≠ 0) (h : interpretMediaType mt = some r) :
    CanonFin r.frame_rate := by
  unfold interpretMediaType at h
  cases hbi : mt.bitmap_info with
  | none => rw [hbi] at h; cases h
  | some bi =>
    rw [hbi] at h
    obtain ⟨fr, hfr⟩ := frame_rate_isSome_of_bitmap mt bi hbi
    cases h
    rw [hfr]
    exact frame_rate_fin mt fr ht hfr

theorem qmul_qdiv_cancel (n : ℤ) : qmul (qdiv ((n : ℤ) : ℚ) 100) 100 = ((n : ℤ) : ℚ) := by
  rw [qmul_eq, qdiv_eq]
  exact div_mul_cancel₀ _ (by norm_num)

/-- The `i64`-scaled frame rate of a finite canonical rate is its number of
hundredths. -/
theorem by_units_fin (r : CaptureDeviceResolution) (n : ℤ)
    (hl : -1000000000 ≤ n) (hu : n ≤ 1000000000)
    (h : r.frame_rate = .finite (qdiv ((n : ℤ) : ℚ) 100)) :
    r.frame_rate_by_units = n := by
  unfold CaptureDeviceResolution.frame_rate_by_units FRAME_RATE_TIME_UNIT_PER_SECOND
  rw [h]
  rw [show Fp.mul (.finite (qdiv ((n : ℤ) : ℚ) 100)) (.finite 100)
      = .finite (qmul (qdiv ((n : ℤ) : ℚ) 100) 100) from rfl]
  rw [qmul_qdiv_cancel]
  simp only [Fp.toI64sat]
  rw [ratTrunc_intCast, min_eq_right (by omega), max_eq_right (by omega)]

/-- The `i64`-scaled frame rate of an infinite rate saturates to `i64::MAX`. -/
theorem by_units_inf (r : CaptureDeviceResolution) (h : r.frame_rate = .inf) :
    r.frame_rate_by_units = 9223372036854775807 := by
  unfold CaptureDeviceResolution.frame_rate_by_units FRAME_RATE_TIME_UNIT_PER_SECOND
  rw [h]
  rw [show Fp.mul .inf (.finite 100) = .inf from by simp [Fp.mul]]
  rfl

theorem specRound100_fin (n : ℤ) :
    specRound100 (.finite (qdiv ((n : ℤ) : ℚ) 100)) = n := by
  simp only [specRound100]
  rw [qmul_qdiv_cancel, roundAway_intCast]

/-- Two canonical resolutions agreeing on the spec's dedup key (width,
height, `round(frame_rate*100)`) are equal under the source's `PartialEq`. -/
theorem resEq_of_specKey (r1 r2 : CaptureDeviceResolution)
    (h1 : CanonRate r1.frame_rate) (h2 : CanonRate r2.frame_rate)
    (hw : r1.width = r2.width) (hh : r1.height = r2.height)
    (hs : specRound100 r1.frame_rate = specRound100 r2.frame_rate) :
    resEq r1 r2 = true := by
  have hby : r1.frame_rate_by_units = r2.frame_rate_by_units := by
    rcases h1 with hf1 | ⟨n1, hn1l, hn1u, hf1⟩ <;>
      rcases h2 with hf2 | ⟨n2, hn2l, hn2u, hf2⟩
    · rw [by_units_inf r1 hf1, by_units_inf r2 hf2]
    · rw [hf1, hf2, specRound100_fin] at hs
      simp only [specRound100] at hs
      omega
    · rw [hf1, hf2, specRound100_fin] at hs
      simp only [specRound100] at hs
      omega
    · rw [hf1, hf2, specRound100_fin, specRound100_fin] at hs
      rw [by_units_fin r1 n1 hn1l hn1u hf1, by_units_fin r2 n2 hn2l hn2u hf2, hs]
  simp [resEq, hw, hh, hby]

/-- `hsInsert` preserves pairwise distinctness under the source `PartialEq`. -/
theorem hsInsert_pairwise {l : List CaptureDeviceResolution}
    {r : CaptureDeviceResolution}
    (h : l.Pairwise (fun a b => resEq a b = false)) :
    (hsInsert l r).Pairwise (fun a b => resEq a b = false) := by
  unfold hsInsert
  by_cases hc : l.any (fun x => resEq x r) = true
  · rw [if_pos hc]
    exact h
  · rw [if_neg hc]
    rw [List.pairwise_append]
    refine ⟨h, List.pairwise_singleton _ _, ?_⟩
    intro a ha b hb
    rw [List.mem_singleton] at hb
    rw [hb]
    have hf : l.any (fun x => resEq x r) = false := by simpa using hc
    have hx := List.any_eq_false.mp hf a ha
    simpa using hx

/-- `hsInsert` preserves an element-wise invariant. -/
theorem hsInsert_forall {P : CaptureDeviceResolution → Prop}
    {l : List CaptureDeviceResolution} {r : CaptureDeviceResolution}
    (h : ∀ x ∈ l, P x) (hr : P r) : ∀ x ∈ hsInsert l r, P x := by
  unfold hsInsert
  by_cases hc : l.any (fun x => resEq x r) = true
  · rw [if_pos hc]
    exact h
  · rw [if_neg hc]
    intro x hx
    rcases List.mem_append.mp hx with hx | hx
    · exact h x hx
    · rw [List.mem_singleton] at hx
      subst hx
      exact hr

/-- The media-type fold preserves pairwise distinctness. -/
theorem insertMediaTypes_pairwise (mts : List MediaType) :
    ∀ acc : List CaptureDeviceResolution,
      acc.Pairwise (fun a b => resEq a b = false) →
      (insertMediaTypes acc mts).Pairwise (fun a b => resEq a b = false) := by
  induction mts with
  | nil => intro acc h; exact h
  | cons mt mts ih =>
    intro acc h
    rw [show insertMediaTypes acc (mt :: mts)
        = insertMediaTypes
            (match interpretMediaType mt with
             | some r => hsInsert acc r
             | none => acc) mts from rfl]
    cases hi : interpretMediaType mt with
    | none => exact ih acc h
    | some r => exact ih _ (hsInsert_pairwise h)

/-- The media-type fold preserves an element-wise invariant established by
the interpreter. -/
theorem insertMediaTypes_forall {P : CaptureDeviceResolution → Prop}
    (mts : List MediaType)
    (hP : ∀ mt ∈ mts, ∀ r, interpretMediaType mt = some r → P r) :
    ∀ acc : List CaptureDeviceResolution, (∀ x ∈ acc, P x) →
      ∀ x ∈ insertMediaTypes acc mts, P x := by
  induction mts with
  | nil => intro acc h; exact h
  | cons mt mts ih =>
    intro acc h
    rw [show insertMediaTypes acc (mt :: mts)
        = insertMediaTypes
            (match interpretMediaType mt with
             | some r => hsInsert acc r
             | none => acc) mts from rfl]
    have hPtail : ∀ mt' ∈ mts, ∀ r, interpretMediaType mt' = some r → P r :=
      fun mt' hm => hP mt' (List.mem_cons_of_mem _ hm)
    cases hi : interpretMediaType mt with
    | none => exact ih hPtail acc h
    | some r =>
      exact ih hPtail _ (hsInsert_forall h (hP mt (List.mem_cons_self _ _) r hi))

/-- Case analysis of one pin-loop step: a successful `processPin` either
keeps the accumulator (non-output pin) or folds in the pin's media types. -/
theorem processPin_ok_cases (acc : List CaptureDeviceResolution) (p : PinData)
    (acc2 : List CaptureDeviceResolution) (h : processPin acc p = .ok acc2) :
    acc2 = acc ∨ ∃ mts, p.enumMediaTypes = .ok mts ∧ acc2 = insertMediaTypes acc mts := by
  unfold processPin at h
  split at h
  · cases h
  · split at h
    · split at h
      · cases h
      · rename_i mts hmts
        cases h
        exact Or.inr ⟨mts, hmts, rfl⟩
    · cases h
      exact Or.inl rfl

/-- The pin loop preserves pairwise distinctness. -/
theorem processPinsList_pairwise (ps : List PinData) :
    ∀ acc l, acc.Pairwise (fun a b => resEq a b = false) →
      processPinsList acc ps = .ok l →
      l.Pairwise (fun a b => resEq a b = false) := by
  induction ps with
  | nil =>
    intro acc l h hok
    cases hok
    exact h
  | cons p ps ih =>
    intro acc l h hok
    rw [processPinsList] at hok
    split at hok
    · cases hok
    · rename_i acc2 hp
      refine ih acc2 l ?_ hok
      rcases processPin_ok_cases acc p acc2 hp with he | ⟨mts, _, he⟩
      · rw [he]; exact h
      · rw [he]; exact insertMediaTypes_pairwise mts acc h

/-- The pin loop preserves an element-wise invariant established by the
interpreter on the media types it reaches. -/
theorem processPinsList_forall {P : CaptureDeviceResolution → Prop}
    (ps : List PinData)
    (hP : ∀ p ∈ ps, ∀ mts, p.enumMediaTypes = .ok mts →
      ∀ mt ∈ mts, ∀ r, interpretMediaType mt = some r → P r) :
    ∀ acc l, (∀ x ∈ acc, P x) → processPinsList acc ps = .ok l → ∀ x ∈ l, P x := by
  induction ps with
  | nil =>
    intro acc l h hok
    cases hok
    exact h
  | cons p ps ih =>
    intro acc l h hok
    rw [processPinsList] at hok
    have hPtail : ∀ p' ∈ ps, ∀ mts, p'.enumMediaTypes = .ok mts →
        ∀ mt ∈ mts, ∀ r, interpretMediaType mt = some r → P r :=
      fun p' hm => hP p' (List.mem_cons_of_mem _ hm)
    split at hok
    · cases hok
    · rename_i acc2 hp
      refine ih hPtail acc2 l ?_ hok
      rcases processPin_ok_cases acc p acc2 hp with he | ⟨mts, hmts, he⟩
      · rw [he]; exact h
      · rw [he]
        exact insertMediaTypes_forall mts
          (hP p (List.mem_cons_self _ _) mts hmts) acc h

/-- The resolution set of a device is pairwise distinct under the source's
`PartialEq` (the `HashSet` invariant). -/
theorem processPins_pairwise (d : DeviceData) (l : List CaptureDeviceResolution)
    (h : processPins d = .ok l) : l.Pairwise (fun a b => resEq a b = false) := by
  unfold processPins at h
  split at h
  · cases h
  · rename_i ps hps
    exact processPinsList_pairwise ps [] l List.Pairwise.nil h

/-- Every element of a device's resolution set has a canonical frame rate. -/
theorem processPins_canon (d : DeviceData) (l : List CaptureDeviceResolution)
    (h : processPins d = .ok l) : ∀ r ∈ l, CanonRate r.frame_rate := by
  unfold processPins at h
  split at h
  · cases h
  · rename_i ps hps
    exact processPinsList_forall ps
      (fun p _ mts _ mt _ r hr => interp_canon mt r hr) [] l
      (by intro x hx; cases hx) h

/-- Under `DeviceTicksOk`, every element of a device's resolution set has a
finite canonical frame rate. -/
theorem processPins_fin (d : DeviceData) (l : List CaptureDeviceResolution)
    (ht : DeviceTicksOk d) (h : processPins d = .ok l) :
    ∀ r ∈ l, CanonFin r.frame_rate := by
  unfold processPins at h
  split at h
  · cases h
  · rename_i ps hps
    refine processPinsList_forall ps ?_ [] l (by intro x hx; cases hx) h
    intro p hp mts hm mt hmt r hr
    have htick : mt.avgTimePerFrame ≠ 0 := by
      refine ht ps hps p hp mts hm mt hmt ?_
      unfold interpretMediaType at hr
      cases hbi : mt.bitmap_info with
      | none => rw [hbi] at hr; cases hr
      | some bi =>
        unfold MediaType.bitmap_info at hbi
        by_cases h1 : mt.formattype = FormatType.videoInfo
        · exact Or.inl h1
        · by_cases h2 : mt.formattype = FormatType.videoInfo2
          · exact Or.inr h2
          · simp [h1, h2] at hbi
    exact interp_fin mt r htick hr

theorem Fp.leTotal_total (a b : Fp) : Fp.leTotal a b = true ∨ Fp.leTotal b a = true := by
  cases a <;> cases b <;> simp [Fp.leTotal]
  exact le_total _ _

theorem Fp.leTotal_trans (a b c : Fp) (h1 : Fp.leTotal a b = true)
    (h2 : Fp.leTotal b c = true) : Fp.leTotal a c = true := by
  cases a <;> cases b <;> cases c <;> simp_all [Fp.leTotal]
  exact le_trans h1 h2

instance resLe.isTotal : IsTotal CaptureDeviceResolution resLe :=
  ⟨fun a b => Fp.leTotal_total (sortKey b) (sortKey a)⟩

instance resLe.isTrans : IsTrans CaptureDeviceResolution resLe :=
  ⟨fun a b c h1 h2 => Fp.leTotal_trans (sortKey c) (sortKey b) (sortKey a) h2 h1⟩

/-- The sorted output is `Pairwise` for the (total extension of the) source
comparator. -/
theorem sortResolutions_pairwise (l : List CaptureDeviceResolution) :
    (sortResolutions l).Pairwise resLe :=
  List.sorted_insertionSort resLe l

theorem sortResolutions_perm (l : List CaptureDeviceResolution) :
    (sortResolutions l).Perm l :=
  List.perm_insertionSort resLe l

/-- The sort key of a resolution with a finite frame rate is finite. -/
theorem sortKey_fin (r : CaptureDeviceResolution) (q : ℚ)
    (h : r.frame_rate = .finite q) :
    sortKey r = .finite (qmul (qmul ((r.width : ℕ) : ℚ) ((r.height : ℕ) : ℚ)) q) := by
  unfold sortKey
  rw [h]
  simp [Fp.mul]

/-- On finite sort keys, the total order implies the IEEE `>=` used in the
claim statements. -/
theorem fge_of_resLe_fin (a b : CaptureDeviceResolution) (qa qb : ℚ)
    (ha : sortKey a = .finite qa) (hb : sortKey b = .finite qb)
    (h : resLe a b) : Fp.fge (sortKey a) (sortKey b) = true := by
  unfold resLe at h
  rw [ha, hb] at h ⊢
  simp only [Fp.leTotal, decide_eq_true_eq] at h
  unfold Fp.fge Fp.pcmp
  by_cases h1 : qa < qb
  · exact absurd h1 (not_lt.mpr h)
  · by_cases h2 : qb < qa <;> simp [h1, h2]

/-- On finite sort keys, `partial_cmp` is always `some`. -/
theorem pcmp_isSome_fin (a b : Fp) (qa qb : ℚ) (ha : a = .finite qa)
    (hb : b = .finite qb) : (Fp.pcmp a b).isSome = true := by
  rw [ha, hb]
  unfold Fp.pcmp
  simp

/-- A record of a successful collection comes from one of the devices. -/
theorem collectResults_mem : ∀ devs recs (rec : DirectShowCaptureDevice),
    collectResults devs = .ok recs → rec ∈ recs →
    ∃ d ∈ devs, processDevice d = .ok rec := by
  intro devs
  induction devs with
  | nil =>
    intro recs rec h hm
    cases h
    cases hm
  | cons d ds ih =>
    intro recs rec h hm
    rw [collectResults] at h
    split at h
    · cases h
    · rename_i r hr
      split at h
      · cases h
      · rename_i rs hrs
        cases h
        rcases List.mem_cons.mp hm with hm | hm
        · exact ⟨d, List.mem_cons_self _ _, hm ▸ hr⟩
        · obtain ⟨d', hd', hok⟩ := ih rs rec hrs hm
          exact ⟨d', List.mem_cons_of_mem _ hd', hok⟩

/-- If any device fails, the collection fails. -/
theorem collectResults_err_of_mem : ∀ devs (d : DeviceData) e, d ∈ devs →
    processDevice d = .error e → ∃ e2, collectResults devs = .error e2 := by
  intro devs
  induction devs with
  | nil =>
    intro d e hm
    cases hm
  | cons d0 ds ih =>
    intro d e hm herr
    rw [collectResults]
    cases hd0 : processDevice d0 with
    | error e0 => exact ⟨e0, rfl⟩
    | ok r =>
      rcases List.mem_cons.mp hm with hm | hm
      · rw [hm] at herr
        rw [herr] at hd0
        cases hd0
      · obtain ⟨e2, he2⟩ := ih d e hm herr
        rw [he2]
        exact ⟨e2, rfl⟩

/-- A successful record determines the resolution list via `processPins`
and the sort. -/
theorem processDevice_resolution (d : DeviceData) (rec : DirectShowCaptureDevice)
    (h : processDevice d = .ok rec) :
    ∃ set, processPins d = .ok set ∧
      rec.resolution = sortResolutions (d.shuffle set) := by
  unfold processDevice at h
  split at h
  · cases h
  · split at h
    · cases h
    · split at h
      · cases h
      · split at h
        · cases h
        · rename_i set hset
          cases h
          exact ⟨set, hset, rfl⟩

/-- A record of a successful `capture_devices` call comes from one of the
enumerated devices. -/
theorem capture_ok_mem (env : Env) (devs : List DeviceData)
    (recs : List DirectShowCaptureDevice) (rec : DirectShowCaptureDevice)
    (hE : env.enumerateDevices = .ok devs)
    (h : (capture_devices env).1 = .ok recs) (hm : rec ∈ recs) :
    ∃ d ∈ devs, processDevice d = .ok rec := by
  unfold capture_devices at h
  split at h
  · cases h
  · rw [hE] at h
    simp only [] at h
    split at h
    · cases h
    · rename_i recs2 hrecs
      cases h
      exact collectResults_mem devs _ rec hrecs hm

/-- A successful `processDevice` determines all fields of the record. -/
theorem processDevice_fields (d : DeviceData) (rec : DirectShowCaptureDevice)
    (h : processDevice d = .ok rec) :
    ∃ desc nm set, (readDescription d).1 = .ok desc ∧ readDevicePath d = .ok nm ∧
      processPins d = .ok set ∧
      rec = ⟨nm, desc, sortResolutions (d.shuffle set)⟩ := by
  unfold processDevice at h
  split at h
  · cases h
  · split at h
    · cases h
    · rename_i desc hdesc
      split at h
      · cases h
      · rename_i nm hnm
        split at h
        · cases h
        · rename_i set hset
          cases h
          exact ⟨desc, nm, set, hdesc, hnm, hset, rfl⟩

/-- If the per-device collection fails, the whole call returns an error. -/
theorem capture_err_of_collect (env : Env) (devs : List DeviceData) (e2 : WinError)
    (hE : env.enumerateDevices = .ok devs) (hcol : collectResults devs = .error e2) :
    ∃ e3, (capture_devices env).1 = .error e3 := by
  unfold capture_devices
  cases hci : env.coInit with
  | error e0 => exact ⟨e0, rfl⟩
  | ok u =>
    refine ⟨e2, ?_⟩
    simp only [hE, hcol]

/-- If both description reads fail, processing the device fails. -/
theorem processDevice_err_desc (d : DeviceData) (e1 e2 : WinError)
    (h1 : d.descriptionRead = .error e1) (h2 : d.friendlyNameRead = .error e2) :
    ∃ e3, processDevice d = .error e3 := by
  cases hb : d.bindStorage with
  | error eb =>
    refine ⟨eb, ?_⟩
    unfold processDevice
    rw [hb]
  | ok u =>
    refine ⟨e2, ?_⟩
    unfold processDevice
    rw [hb]
    have hrd : (readDescription d).1 = .error e2 := by
      unfold readDescription
      rw [h1, h2]
    rw [hrd]

/-- C10: `MediaType::bitmap_info` and `MediaType::frame_rate` return `Some`
for exactly the same descriptors — both exactly when `formattype` is
`FORMAT_VideoInfo` or `FORMAT_VideoInfo2` — so the
`frame_rate().unwrap()` executed inside the `bitmap_info`-is-`Some` branch
of `capture_devices` can never panic. -/
theorem c10_bitmap_iff_frame_rate (mt : MediaType) :
    (mt.bitmap_info).isSome = (mt.frame_rate).isSome ∧
    ((mt.bitmap_info).isSome = true ↔
      (mt.formattype = FormatType.videoInfo ∨
        mt.formattype = FormatType.videoInfo2)) ∧
    (∀ bi, mt.bitmap_info = some bi → ∃ fr, mt.frame_rate = some fr) := by
  refine ⟨?_, ?_, fun bi h => frame_rate_isSome_of_bitmap mt bi h⟩
  · unfold MediaType.bitmap_info MediaType.frame_rate
    by_cases h1 : mt.formattype = FormatType.videoInfo
    · simp [h1]
    · by_cases h2 : mt.formattype = FormatType.videoInfo2 <;> simp [h1, h2]
  · unfold MediaType.bitmap_info
    by_cases h1 : mt.formattype = FormatType.videoInfo
    · simp [h1]
    · by_cases h2 : mt.formattype = FormatType.videoInfo2 <;> simp [h1, h2]

theorem c10_witness :
    (MediaType.bitmap_info ⟨FormatType.videoInfo, 333333, ⟨1920, 1080⟩⟩).isSome
      = (MediaType.frame_rate ⟨FormatType.videoInfo, 333333, ⟨1920, 1080⟩⟩).isSome :=
  (c10_bitmap_iff_frame_rate ⟨FormatType.videoInfo, 333333, ⟨1920, 1080⟩⟩).1

/-- Environment in which `CoInitializeEx` succeeds but
`CreateClassEnumerator` finds no device enumerator
(`VFW_E_NOT_FOUND`, `dshow.rs:66`). -/
def envLeak : Env :=
  ⟨.ok (), .error ⟨0x80040216, "No video input device found"⟩⟩

/-- C1: the claim fails on the code.  When `CoInitializeEx` succeeds and a
later step errors, every `?` in `capture_devices` returns before reaching
the `CoUninitialize` call at `dshow.rs:327`, so the session is acquired
but never released on the error paths. -/
theorem c1_com_leak :
    (capture_devices envLeak).2.acquired = true ∧
    (capture_devices envLeak).2.released = false ∧
    (capture_devices envLeak).1
      = .error ⟨0x80040216, "No video input device found"⟩ :=
  ⟨rfl, rfl, rfl⟩

/-- C7: an error while processing any device makes `capture_devices`
return a single typed error; no partial device list is ever returned. -/
theorem c7_abort_on_device_error (env : Env) (devs : List DeviceData)
    (d : DeviceData) (e : WinError)
    (hE : env.enumerateDevices = .ok devs) (hm : d ∈ devs)
    (herr : processDevice d = .error e) :
    (∃ e2, (capture_devices env).1 = .error e2) ∧
    ∀ recs, (capture_devices env).1 ≠ .ok recs := by
  obtain ⟨e2, he2⟩ := collectResults_err_of_mem devs d e hm herr
  have hmain := capture_err_of_collect env devs e2 hE he2
  refine ⟨hmain, ?_⟩
  obtain ⟨e3, he3⟩ := hmain
  intro recs hrecs
  rw [he3] at hrecs
  cases hrecs

/-- Device whose filter binding fails. -/
def devFail : DeviceData :=
  ⟨.error ⟨5, "bind failed"⟩, .ok "cam", .ok "cam", .ok (), .ok "path", .ok (),
    .ok [], id⟩

/-- Environment containing only `devFail`. -/
def env7 : Env := ⟨.ok (), .ok [devFail]⟩

theorem c7_witness :
    env7.enumerateDevices = .ok [devFail] ∧
    devFail ∈ [devFail] ∧
    processDevice devFail = .error ⟨5, "bind failed"⟩ ∧
    ((∃ e2, (capture_devices env7).1 = .error e2) ∧
      ∀ recs, (capture_devices env7).1 ≠ .ok recs) :=
  ⟨rfl, List.mem_singleton_self _, rfl,
    c7_abort_on_device_error env7 [devFail] devFail ⟨5, "bind failed"⟩ rfl
      (List.mem_singleton_self _) rfl⟩

/-- C8: a failed `"DevicePath"` read yields the empty string and is not an
error; a successful read (after `VariantClear`) yields the path verbatim,
and every produced record's `name` is exactly the read's outcome. -/
theorem c8_device_path :
    (∀ d e, d.devicePathRead = .error e → readDevicePath d = .ok "") ∧
    (∀ d s, d.devicePathRead = .ok s → d.clearPathVariant = .ok () →
      readDevicePath d = .ok s) ∧
    (∀ d rec, processDevice d = .ok rec →
      rec.name = (match d.devicePathRead with | .ok s => s | .error _ => "")) := by
  refine ⟨?_, ?_, ?_⟩
  · intro d e h
    unfold readDevicePath
    rw [h]
  · intro d s h hc
    unfold readDevicePath
    rw [h, hc]
  · intro d rec h
    obtain ⟨desc, nm, set, hdesc, hnm, hset, hrec⟩ := processDevice_fields d rec h
    rw [hrec]
    unfold readDevicePath at hnm
    cases hs : d.devicePathRead with
    | ok s =>
      rw [hs] at hnm
      cases hc : d.clearPathVariant with
      | ok u =>
        rw [hc] at hnm
        have hnm2 : (Except.ok s : Except WinError String) = .ok nm := hnm
        cases hnm2
        rfl
      | error e =>
        rw [hc] at hnm
        have hnm2 : (Except.error e : Except WinError String) = .ok nm := hnm
        cases hnm2
    | error e =>
      rw [hs] at hnm
      have hnm2 : (Except.ok "" : Except WinError String) = .ok nm := hnm
      cases hnm2
      rfl

/-- Device whose `"DevicePath"` property is absent. -/
def dPathless : DeviceData :=
  ⟨.ok (), .ok "cam", .ok "cam", .ok (), .error ⟨1, "no path"⟩, .ok (),
    .ok [], id⟩

theorem c8_witness :
    dPathless.devicePathRead = .error ⟨1, "no path"⟩ ∧
    readDevicePath dPathless = .ok "" :=
  ⟨rfl, c8_device_path.1 dPathless ⟨1, "no path"⟩ rfl⟩

/-- C6: description fallback.  A present `"Description"` is used verbatim
and `"FriendlyName"` is never read; an absent one falls back to
`"FriendlyName"`; if both reads fail the device errors (with the fallback
read's error) and the whole enumeration call fails. -/
theorem c6_description_fallback :
    (∀ d s, d.descriptionRead = .ok s →
      "FriendlyName" ∉ (readDescription d).2 ∧
        ∀ rec, processDevice d = .ok rec → rec.description = s) ∧
    (∀ d e s, d.descriptionRead = .error e → d.friendlyNameRead = .ok s →
      ∀ rec, processDevice d = .ok rec → rec.description = s) ∧
    (∀ d e1 e2, d.descriptionRead = .error e1 → d.friendlyNameRead = .error e2 →
      (readDescription d).1 = .error e2 ∧ ∀ rec, processDevice d ≠ .ok rec) ∧
    (∀ env devs d e1 e2, env.enumerateDevices = .ok devs → d ∈ devs →
      d.descriptionRead = .error e1 → d.friendlyNameRead = .error e2 →
      ∃ e, (capture_devices env).1 = .error e) := by
  refine ⟨?_, ?_, ?_, ?_⟩
  · intro d s h
    constructor
    · have hlog : (readDescription d).2 = ["Description"] := by
        unfold readDescription
        rw [h]
      rw [hlog]
      decide
    · intro rec hrec
      obtain ⟨desc, nm, set, hdesc, hnm, hset, hrec2⟩ := processDevice_fields d rec hrec
      rw [hrec2]
      unfold readDescription at hdesc
      rw [h] at hdesc
      cases hc : d.clearDescVariant with
      | ok u =>
        rw [hc] at hdesc
        have hdesc2 : (Except.ok s : Except WinError String) = .ok desc := hdesc
        cases hdesc2
        rfl
      | error e =>
        rw [hc] at hdesc
        have hdesc2 : (Except.error e : Except WinError String) = .ok desc := hdesc
        cases hdesc2
  · intro d e s h1 h2 rec hrec
    obtain ⟨desc, nm, set, hdesc, hnm, hset, hrec2⟩ := processDevice_fields d rec hrec
    rw [hrec2]
    unfold readDescription at hdesc
    rw [h1, h2] at hdesc
    cases hc : d.clearDescVariant with
    | ok u =>
      rw [hc] at hdesc
      have hdesc2 : (Except.ok s : Except WinError String) = .ok desc := hdesc
      cases hdesc2
      rfl
    | error e3 =>
      rw [hc] at hdesc
      have hdesc2 : (Except.error e3 : Except WinError String) = .ok desc := hdesc
      cases hdesc2
  · intro d e1 e2 h1 h2
    have h3 : (readDescription d).1 = .error e2 := by
      unfold readDescription
      rw [h1, h2]
    refine ⟨h3, ?_⟩
    intro rec hrec
    obtain ⟨desc, nm, set, hdesc, hnm, hset, hrec2⟩ := processDevice_fields d rec hrec
    rw [h3] at hdesc
    cases hdesc
  · intro env devs d e1 e2 hE hm h1 h2
    obtain ⟨e3, he3⟩ := processDevice_err_desc d e1 e2 h1 h2
    obtain ⟨e4, he4⟩ := collectResults_err_of_mem devs d e3 hm he3
    exact capture_err_of_collect env devs e4 hE he4

/-- Device of the spec's Scenario D: no `"Description"`, but
`"FriendlyName" = "USB Camera"`. -/
def dUSB : DeviceData :=
  ⟨.ok (), .error ⟨3, "no description"⟩, .ok "USB Camera", .ok (), .ok "path",
    .ok (), .ok [], id⟩

theorem c6_witness :
    dUSB.descriptionRead = .error ⟨3, "no description"⟩ ∧
    dUSB.friendlyNameRead = .ok "USB Camera" ∧
    processDevice dUSB = .ok ⟨"path", "USB Camera", []⟩ ∧
    (⟨"path", "USB Camera", []⟩ : DirectShowCaptureDevice).description
      = "USB Camera" :=
  ⟨rfl, rfl, rfl,
    c6_description_fallback.2.1 dUSB ⟨3, "no description"⟩ "USB Camera" rfl rfl
      ⟨"path", "USB Camera", []⟩ rfl⟩

theorem resEq_comm (a b : CaptureDeviceResolution) : resEq a b = resEq b a := by
  have hbe : ∀ x y : Bool, (x = true ↔ y = true) → x = y := by decide
  apply hbe
  unfold resEq
  simp only [Bool.and_eq_true, beq_iff_eq]
  constructor <;> rintro ⟨⟨h1, h2⟩, h3⟩ <;> exact ⟨⟨h1.symm, h2.symm⟩, h3.symm⟩

/-- C2: in every resolution list produced by `capture_devices`, no two
distinct entries agree on width, height and `round(frame_rate * 100)`:
duplicate interpreted tuples collapse to one entry. -/
theorem c2_dedup (env : Env) (devs : List DeviceData)
    (recs : List DirectShowCaptureDevice) (rec : DirectShowCaptureDevice)
    (hE : env.enumerateDevices = .ok devs)
    (hok : ∀ d ∈ devs, DeviceOk d)
    (h : (capture_devices env).1 = .ok recs) (hm : rec ∈ recs) :
    rec.resolution.Pairwise (fun r1 r2 =>
      ¬(r1.width = r2.width ∧ r1.height = r2.height ∧
        specRound100 r1.frame_rate = specRound100 r2.frame_rate)) := by
  obtain ⟨d, hd, hrec⟩ := capture_ok_mem env devs recs rec hE h hm
  obtain ⟨set, hset, hres⟩ := processDevice_resolution d rec hrec
  have hpw := processPins_pairwise d set hset
  have hcanon := processPins_canon d set hset
  have hperm : rec.resolution.Perm set := by
    rw [hres]
    exact (sortResolutions_perm _).trans (hok d hd set)
  have hcanon2 : ∀ r ∈ rec.resolution, CanonRate r.frame_rate :=
    fun r hr => hcanon r (hperm.mem_iff.mp hr)
  have hsymm : ∀ {x y : CaptureDeviceResolution},
      resEq x y = false → resEq y x = false := by
    intro x y hxy
    rw [resEq_comm]
    exact hxy
  have hpw2 : rec.resolution.Pairwise (fun a b => resEq a b = false) :=
    (List.Perm.pairwise_iff hsymm hperm).mpr hpw
  refine List.Pairwise.imp_of_mem ?_ hpw2
  intro a b ha hb hab hkey
  obtain ⟨hw, hh, hs⟩ := hkey
  have hres2 := resEq_of_specKey a b (hcanon2 a ha) (hcanon2 b hb) hw hh hs
  rw [hres2] at hab
  cases hab

/-- Reduction of `DeviceTicksOk` to the concrete pin list. -/
theorem deviceTicksOk_of_list (d : DeviceData) (ps : List PinData)
    (hd : d.enumPins = .ok ps)
    (hps : ∀ p ∈ ps, ∀ mts, p.enumMediaTypes = .ok mts →
      ∀ mt ∈ mts, mt.avgTimePerFrame ≠ 0) :
    DeviceTicksOk d := by
  intro ps' hps' p hp mts hmts mt hmt _
  rw [hd] at hps'
  have h2 : (Except.ok ps : Except WinError (List PinData)) = .ok ps' := hps'
  cases h2
  exact hps p hp mts hmts mt hmt

/-- Reduction of the per-pin tick condition to the concrete media-type
list. -/
theorem pinTicksOk_of_list (p : PinData) (mts : List MediaType)
    (hp : p.enumMediaTypes = .ok mts) (h : ∀ mt ∈ mts, mt.avgTimePerFrame ≠ 0) :
    ∀ mts', p.enumMediaTypes = .ok mts' → ∀ mt ∈ mts', mt.avgTimePerFrame ≠ 0 := by
  intro mts' hmts' mt hmt
  rw [hp] at hmts'
  have h2 : (Except.ok mts : Except WinError (List MediaType)) = .ok mts' := hmts'
  cases h2
  exact h mt hmt

/-- C3: in every record produced by `capture_devices` (under the spec's
precondition that recognized descriptors advertise nonzero frame
intervals, without which the source's sort comparator panics), adjacent
resolutions satisfy
`a.width * a.height * a.frame_rate >= b.width * b.height * b.frame_rate`
in the IEEE order: the list is sorted descending by that product. -/
theorem c3_sorted (env : Env) (devs : List DeviceData)
    (recs : List DirectShowCaptureDevice) (rec : DirectShowCaptureDevice)
    (hE : env.enumerateDevices = .ok devs)
    (hok : ∀ d ∈ devs, DeviceOk d)
    (hticks : ∀ d ∈ devs, DeviceTicksOk d)
    (h : (capture_devices env).1 = .ok recs) (hm : rec ∈ recs) :
    List.Chain' (fun a b => Fp.fge (sortKey a) (sortKey b) = true) rec.resolution := by
  obtain ⟨d, hd, hrec⟩ := capture_ok_mem env devs recs rec hE h hm
  obtain ⟨set, hset, hres⟩ := processDevice_resolution d rec hrec
  have hfin := processPins_fin d set (hticks d hd) hset
  have hperm : rec.resolution.Perm set := by
    rw [hres]
    exact (sortResolutions_perm _).trans (hok d hd set)
  have hfin2 : ∀ r ∈ rec.resolution, CanonFin r.frame_rate :=
    fun r hr => hfin r (hperm.mem_iff.mp hr)
  have hpw : rec.resolution.Pairwise resLe := by
    rw [hres]
    exact sortResolutions_pairwise _
  have hpw2 : rec.resolution.Pairwise
      (fun a b => Fp.fge (sortKey a) (sortKey b) = true) := by
    refine List.Pairwise.imp_of_mem ?_ hpw
    intro a b ha hb hab
    obtain ⟨na, _, _, hfa⟩ := hfin2 a ha
    obtain ⟨nb, _, _, hfb⟩ := hfin2 b hb
    exact fge_of_resLe_fin a b _ _ (sortKey_fin a _ hfa) (sortKey_fin b _ hfb) hab
  exact hpw2.chain'

/-- C9 (amended): under the same precondition, every sort key is finite
(never NaN) and `partial_cmp` returns `Some` on every pair, so the
comparator's `unwrap` cannot panic. -/
theorem c9_amended (env : Env) (devs : List DeviceData)
    (recs : List DirectShowCaptureDevice) (rec : DirectShowCaptureDevice)
    (hE : env.enumerateDevices = .ok devs)
    (hok : ∀ d ∈ devs, DeviceOk d)
    (hticks : ∀ d ∈ devs, DeviceTicksOk d)
    (h : (capture_devices env).1 = .ok recs) (hm : rec ∈ recs) :
    ∀ r1 ∈ rec.resolution, ∀ r2 ∈ rec.resolution,
      sortKey r1 ≠ Fp.nan ∧ (Fp.pcmp (sortKey r1) (sortKey r2)).isSome = true := by
  obtain ⟨d, hd, hrec⟩ := capture_ok_mem env devs recs rec hE h hm
  obtain ⟨set, hset, hres⟩ := processDevice_resolution d rec hrec
  have hfin := processPins_fin d set (hticks d hd) hset
  have hperm : rec.resolution.Perm set := by
    rw [hres]
    exact (sortResolutions_perm _).trans (hok d hd set)
  have hfin2 : ∀ r ∈ rec.resolution, CanonFin r.frame_rate :=
    fun r hr => hfin r (hperm.mem_iff.mp hr)
  intro r1 h1 r2 h2
  obtain ⟨n1, _, _, hf1⟩ := hfin2 r1 h1
  obtain ⟨n2, _, _, hf2⟩ := hfin2 r2 h2
  constructor
  · rw [sortKey_fin r1 _ hf1]
    intro hc
    cases hc
  · exact pcmp_isSome_fin _ _ _ _ (sortKey_fin r1 _ hf1) (sortKey_fin r2 _ hf2)

/-- Recognized descriptor with a zero frame interval: `1e7 / 0 = +∞`. -/
def mtZero : MediaType := ⟨.videoInfo, 0, ⟨0, 5⟩⟩

/-- Ordinary recognized descriptor (4x3 at 1 fps). -/
def mtNorm : MediaType := ⟨.videoInfo, 10000000, ⟨4, 3⟩⟩

/-- Output pin advertising `mtZero` and `mtNorm`. -/
def pin9 : PinData := ⟨.ok .output, .ok [mtZero, mtNorm]⟩

/-- Device whose format list contains a zero-tick descriptor. -/
def dev9 : DeviceData :=
  ⟨.ok (), .ok "cam", .ok "cam", .ok (), .ok "p", .ok (), .ok [pin9], id⟩

/-- C9 (counterexample): the interpreter accepts a recognized descriptor
with `AvgTimePerFrame = 0` and `biWidth = 0`; the resulting tuple
`{0, 5, +∞}` has sort key `0 * 5 * ∞ = NaN`, and `partial_cmp` against the
other gathered tuple returns `None`, so the `.unwrap()` in the sort
comparator panics: the claim that the key is never NaN is false. -/
theorem c9_counterexample :
    processPins dev9 = .ok [⟨0, 5, Fp.inf⟩, ⟨4, 3, Fp.finite 1⟩] ∧
    sortKey ⟨0, 5, Fp.inf⟩ = Fp.nan ∧
    Fp.pcmp (sortKey ⟨0, 5, Fp.inf⟩) (sortKey ⟨4, 3, Fp.finite 1⟩) = none :=
  ⟨rfl, rfl, rfl⟩

/-- The frame-rate computation for a nonzero tick count, in closed form. -/
theorem rate_comp_eq (t : ℤ) (ht : t ≠ 0) :
    Fp.div (Fp.fround (Fp.mul (Fp.div (.finite 10000000) (.finite (t : ℚ)))
        (.finite 100))) (.finite 100)
    = .finite (qdiv ((roundAway (qmul (qdiv 10000000 ((t : ℤ) : ℚ)) 100) : ℤ) : ℚ)
        100) := by
  have htq : ((t : ℤ) : ℚ) ≠ 0 := Int.cast_ne_zero.mpr ht
  have h100 : ((100 : ℚ)) ≠ 0 := by norm_num
  rw [show Fp.div (.finite 10000000) (.finite (t : ℚ))
      = .finite (qdiv 10000000 (t : ℚ)) from by simp [Fp.div, htq]]
  rw [show Fp.mul (.finite (qdiv 10000000 (t : ℚ))) (.finite 100)
      = .finite (qmul (qdiv 10000000 (t : ℚ)) 100) from by simp [Fp.mul]]
  rw [show Fp.fround (.finite (qmul (qdiv 10000000 (t : ℚ)) 100))
      = .finite ((roundAway (qmul (qdiv 10000000 (t : ℚ)) 100) : ℤ) : ℚ) from rfl]
  simp [Fp.div, h100]

/-- First output-pin format of the spec's Scenario A: 1920x1080 at
tick-interval 166667. -/
def mtA60 : MediaType := ⟨.videoInfo, 166667, ⟨1920, 1080⟩⟩

/-- Second output-pin format of Scenario A: 1920x1080 at tick-interval
333333 (an extended `VIDEOINFOHEADER2` descriptor). -/
def mtA30 : MediaType := ⟨.videoInfo2, 333333, ⟨1920, 1080⟩⟩

/-- Output pin of Scenario A. -/
def pinA : PinData := ⟨.ok .output, .ok [mtA60, mtA30]⟩

/-- Device of Scenario A. -/
def devA : DeviceData :=
  ⟨.ok (), .ok "cam", .ok "cam", .ok (), .ok "path", .ok (), .ok [pinA], id⟩

/-- Environment of Scenario A. -/
def envA : Env := ⟨.ok (), .ok [devA]⟩

/-- C5: a recognized descriptor with tick count `t ≠ 0`, bitmap width `w`
(taken as-is; `0 ≤ w < 2^31` is the `i32` range on which the `as u32` cast
is the identity) and height `h` yields the tuple
`(w, |h|, round((1e7 / t) * 100) / 100)`; and on Scenario A's environment
the full call yields `[{1920, 1080, 60}, {1920, 1080, 30}]` in that
order. -/
theorem c5_interpretation :
    (∀ ft t w h, (ft = FormatType.videoInfo ∨ ft = FormatType.videoInfo2) →
      t ≠ 0 → 0 ≤ w → w < 2147483648 →
      interpretMediaType ⟨ft, t, ⟨w, h⟩⟩
        = some ⟨w.toNat, h.natAbs,
            .finite (qdiv ((roundAway (qmul (qdiv 10000000 ((t : ℤ) : ℚ)) 100) : ℤ) : ℚ)
              100)⟩) ∧
    capture_devices envA
      = (.ok [⟨"path", "cam",
          [⟨1920, 1080, Fp.finite 60⟩, ⟨1920, 1080, Fp.finite 30⟩]⟩],
         ⟨true, true⟩) := by
  constructor
  · intro ft t w h hft ht hw0 hwlt
    have hbi : MediaType.bitmap_info ⟨ft, t, ⟨w, h⟩⟩ = some ⟨w, h⟩ := by
      unfold MediaType.bitmap_info
      rcases hft with h1 | h1 <;> rw [h1] <;> simp
    have hfr : MediaType.frame_rate ⟨ft, t, ⟨w, h⟩⟩
        = some (Fp.div (Fp.fround (Fp.mul
            (Fp.div (.finite 10000000) (.finite (t : ℚ))) (.finite 100)))
            (.finite 100)) := by
      unfold MediaType.frame_rate
      rcases hft with h1 | h1 <;> rw [h1] <;> simp
    rw [rate_comp_eq t ht] at hfr
    have hu : u32OfI32 w = w.toNat := by
      unfold u32OfI32
      rw [Int.emod_eq_of_lt hw0 (by omega)]
    unfold interpretMediaType
    rw [hbi]
    rw [show (match (some ⟨w, h⟩ : Option BITMAPINFOHEADER) with
        | some bi =>
          some (⟨u32OfI32 bi.biWidth, bi.biHeight.natAbs,
            (MediaType.frame_rate ⟨ft, t, ⟨w, h⟩⟩).getD Fp.nan⟩ :
              CaptureDeviceResolution)
        | none => none)
        = some (⟨u32OfI32 w, h.natAbs,
            (MediaType.frame_rate ⟨ft, t, ⟨w, h⟩⟩).getD Fp.nan⟩ :
              CaptureDeviceResolution) from rfl]
    rw [hfr, hu]
    rfl
  · rfl

theorem c5_witness :
    ((166667 : ℤ) ≠ 0 ∧ (0 : ℤ) ≤ 1920 ∧ (1920 : ℤ) < 2147483648) ∧
    interpretMediaType ⟨.videoInfo, 166667, ⟨1920, -1080⟩⟩
      = some ⟨(1920 : ℤ).toNat, (-1080 : ℤ).natAbs,
          .finite (qdiv
            ((roundAway (qmul (qdiv 10000000 ((166667 : ℤ) : ℚ)) 100) : ℤ) : ℚ)
            100)⟩ :=
  ⟨⟨by decide, by decide, by decide⟩,
    c5_interpretation.1 FormatType.videoInfo 166667 1920 (-1080) (Or.inl rfl)
      (by decide) (by decide) (by decide)⟩

theorem c3_witness :
    (envA.enumerateDevices = .ok [devA] ∧
      (capture_devices envA).1
        = .ok [⟨"path", "cam",
            [⟨1920, 1080, Fp.finite 60⟩, ⟨1920, 1080, Fp.finite 30⟩]⟩]) ∧
    List.Chain' (fun a b => Fp.fge (sortKey a) (sortKey b) = true)
      (⟨"path", "cam", [⟨1920, 1080, Fp.finite 60⟩, ⟨1920, 1080, Fp.finite 30⟩]⟩ :
        DirectShowCaptureDevice).resolution :=
  ⟨⟨rfl, rfl⟩,
    c3_sorted envA [devA] _ _ rfl
      (by
        intro d hd l
        rw [List.mem_singleton] at hd
        rw [hd]
        exact List.Perm.refl l)
      (by
        intro d hd
        rw [List.mem_singleton] at hd
        rw [hd]
        refine deviceTicksOk_of_list devA [pinA] rfl ?_
        intro p hp
        rw [List.mem_singleton] at hp
        rw [hp]
        exact pinTicksOk_of_list pinA [mtA60, mtA30] rfl (by decide))
      rfl (List.mem_singleton_self _)⟩

theorem c9_witness :
    (envA.enumerateDevices = .ok [devA] ∧
      (capture_devices envA).1
        = .ok [⟨"path", "cam",
            [⟨1920, 1080, Fp.finite 60⟩, ⟨1920, 1080, Fp.finite 30⟩]⟩]) ∧
    ∀ r1 ∈ (⟨"path", "cam",
        [⟨1920, 1080, Fp.finite 60⟩, ⟨1920, 1080, Fp.finite 30⟩]⟩ :
          DirectShowCaptureDevice).resolution,
      ∀ r2 ∈ (⟨"path", "cam",
          [⟨1920, 1080, Fp.finite 60⟩, ⟨1920, 1080, Fp.finite 30⟩]⟩ :
            DirectShowCaptureDevice).resolution,
        sortKey r1 ≠ Fp.nan ∧ (Fp.pcmp (sortKey r1) (sortKey r2)).isSome = true :=
  ⟨⟨rfl, rfl⟩,
    c9_amended envA [devA] _ _ rfl
      (by
        intro d hd l
        rw [List.mem_singleton] at hd
        rw [hd]
        exact List.Perm.refl l)
      (by
        intro d hd
        rw [List.mem_singleton] at hd
        rw [hd]
        refine deviceTicksOk_of_list devA [pinA] rfl ?_
        intro p hp
        rw [List.mem_singleton] at hp
        rw [hp]
        exact pinTicksOk_of_list pinA [mtA60, mtA30] rfl (by decide))
      rfl (List.mem_singleton_self _)⟩

/-- Output pin of the spec's Scenario B: identical 1280x720 frames at
tick-intervals 333332 and 333334 (both round to 30.00 fps). -/
def pinB : PinData :=
  ⟨.ok .output, .ok [⟨.videoInfo, 333332, ⟨1280, 720⟩⟩,
    ⟨.videoInfo, 333334, ⟨1280, 720⟩⟩]⟩

/-- Device of Scenario B. -/
def devB : DeviceData :=
  ⟨.ok (), .ok "cam", .ok "cam", .ok (), .ok "path", .ok (), .ok [pinB], id⟩

/-- Environment of Scenario B. -/
def envB : Env := ⟨.ok (), .ok [devB]⟩

theorem c2_witness :
    (envB.enumerateDevices = .ok [devB] ∧
      (capture_devices envB).1
        = .ok [⟨"path", "cam", [⟨1280, 720, Fp.finite 30⟩]⟩]) ∧
    (⟨"path", "cam", [⟨1280, 720, Fp.finite 30⟩]⟩ :
        DirectShowCaptureDevice).resolution.Pairwise (fun r1 r2 =>
      ¬(r1.width = r2.width ∧ r1.height = r2.height ∧
        specRound100 r1.frame_rate = specRound100 r2.frame_rate)) :=
  ⟨⟨rfl, rfl⟩,
    c2_dedup envB [devB] _ _ rfl
      (by
        intro d hd l
        rw [List.mem_singleton] at hd
        rw [hd]
        exact List.Perm.refl l)
      rfl (List.mem_singleton_self _)⟩

/-- Second tied descriptor for the stability counterexample: 2x6 at 1 fps
(same `width*height*frame_rate` product as `mtNorm`'s 4x3 at 1 fps). -/
def mtT2 : MediaType := ⟨.videoInfo, 10000000, ⟨2, 6⟩⟩

/-- Output pin advertising the two tied formats, `mtNorm` first. -/
def pin4 : PinData := ⟨.ok .output, .ok [mtNorm, mtT2]⟩

/-- Device with two sort-tied resolutions whose `HashSet` happens to
iterate in reverse insertion order (an order Rust permits: set iteration
order is unspecified and randomly seeded). -/
def dev4 : DeviceData :=
  ⟨.ok (), .ok "cam", .ok "cam", .ok (), .ok "p", .ok (), .ok [pin4],
    List.reverse⟩

/-- C4 (counterexample): the tuple `{4,3,1}` is discovered before `{2,6,1}`
(equal sort keys), yet the final list of the produced record is
`[{2,6,1}, {4,3,1}]`: with a permitted `HashSet` iteration order the
first-discovered entry does not come first, so discovery-order tie
breaking is not guaranteed by the code (`HashSet` iteration order is
unspecified and `sort_unstable_by` gives no stability). -/
theorem c4_counterexample :
    processPins dev4 = .ok [⟨4, 3, Fp.finite 1⟩, ⟨2, 6, Fp.finite 1⟩] ∧
    processDevice dev4
      = .ok ⟨"p", "cam", [⟨2, 6, Fp.finite 1⟩, ⟨4, 3, Fp.finite 1⟩]⟩ ∧
    sortKey ⟨4, 3, Fp.finite 1⟩ = sortKey ⟨2, 6, Fp.finite 1⟩ ∧
    (⟨4, 3, Fp.finite 1⟩ : CaptureDeviceResolution) ≠ ⟨2, 6, Fp.finite 1⟩ :=
  ⟨rfl, rfl, rfl, by decide⟩

/-- C4 (amended): whenever the `HashSet` iteration order is a permutation
of the gathered set, the produced record's list is a permutation of that
set, sorted (weakly) descending by the sort key; the relative order of
sort-key ties is unspecified. -/
theorem c4_amended (d : DeviceData) (rec : DirectShowCaptureDevice)
    (set : List CaptureDeviceResolution) (hok : DeviceOk d)
    (hrec : processDevice d = .ok rec) (hset : processPins d = .ok set) :
    rec.resolution.Perm set ∧ rec.resolution.Pairwise resLe := by
  obtain ⟨set2, hset2, hres⟩ := processDevice_resolution d rec hrec
  rw [hset] at hset2
  have h2 : (Except.ok set : Except WinError (List CaptureDeviceResolution))
      = .ok set2 := hset2
  cases h2
  constructor
  · rw [hres]
    exact (sortResolutions_perm _).trans (hok set)
  · rw [hres]
    exact sortResolutions_pairwise _

theorem c4_witness :
    (processDevice dev4
        = .ok ⟨"p", "cam", [⟨2, 6, Fp.finite 1⟩, ⟨4, 3, Fp.finite 1⟩]⟩ ∧
      processPins dev4 = .ok [⟨4, 3, Fp.finite 1⟩, ⟨2, 6, Fp.finite 1⟩]) ∧
    ((⟨"p", "cam", [⟨2, 6, Fp.finite 1⟩, ⟨4, 3, Fp.finite 1⟩]⟩ :
        DirectShowCaptureDevice).resolution.Perm
          [⟨4, 3, Fp.finite 1⟩, ⟨2, 6, Fp.finite 1⟩] ∧
      (⟨"p", "cam", [⟨2, 6, Fp.finite 1⟩, ⟨4, 3, Fp.finite 1⟩]⟩ :
        DirectShowCaptureDevice).resolution.Pairwise resLe) :=
  ⟨⟨rfl, rfl⟩,
    c4_amended dev4 _ _ (fun l => l.reverse_perm) rfl rfl⟩
